import Mathlib

/-!
Verification of the MongoDB-backed product store of the epolux admin
backend.  The definitions below are a shallow embedding of the helper
module that owns the products collection (`connectDB` / `getDB`,
`getProducts`, `getProductById`, `createProduct`, `updateProduct`,
`deleteProduct`, `saveStaticProducts`) and of the static-visibility
toggle route of the HTTP layer.

Modelling conventions:
* A BSON / JS value is `Value`: integers, the floating NaN produced by a
  failed numeric coercion, strings, and arrays.  The numeric universe of
  the embedding is the integers: the store only ever computes integer
  ids (`maxId + 1`, `parseInt`), so fractional literals never arise from
  the code itself; a stored fractional string would coerce to NaN here.
* A document is `Doc`: its database-assigned `_id` (`oid`, the canonical
  lowercase 24-hex-digit text of the ObjectId; `""` stands for a
  document without `_id`, which real MongoDB never produces) plus the
  ordered field list `kv`.  JS objects have unique keys; `getField`
  reads the first binding and `setField` replaces it, which coincides
  with JS semantics on every state the code can build.
* The MongoDB connection is `Option (List Doc)`: `none` is the state in
  which `getDB` throws (connection failure), `some coll` a reachable
  collection holding the documents in natural order.  `findOne`,
  `findOneAndUpdate` and `findOneAndDelete` act on the first document
  matching the query, as the driver does without a sort option.
* Clock reads (`new Date().toISOString()`) inside one operation are a
  single instant, passed as the `ts` argument; the ObjectId minted by
  `insertOne` is the `newOid` argument; `Math.random()` in the list
  normalizer is the `rnd` argument.
* Fallible operations return `Except Unit`: `Except.error ()` is the
  rethrown storage error, `Except.ok` the JS return value.
-/

/-- A JS/BSON value as far as the product store observes it. -/
inductive Value where
  | vint : Int → Value
  | vnan : Value
  | vstr : String → Value
  | vlist : List Value → Value
deriving Repr

mutual

/-- Structural boolean equality on values. -/
def Value.beq : Value → Value → Bool
  | .vint a, .vint b => a == b
  | .vnan, .vnan => true
  | .vstr a, .vstr b => a == b
  | .vlist a, .vlist b => Value.beqList a b
  | _, _ => false

/-- Structural boolean equality on value lists. -/
def Value.beqList : List Value → List Value → Bool
  | [], [] => true
  | x :: xs, y :: ys => Value.beq x y && Value.beqList xs ys
  | _, _ => false

end

mutual

theorem Value.beq_iff : ∀ a b : Value, Value.beq a b = true ↔ a = b
  | .vint a, .vint b => by simp [Value.beq]
  | .vint _, .vnan | .vint _, .vstr _ | .vint _, .vlist _ => by simp [Value.beq]
  | .vnan, .vint _ | .vnan, .vstr _ | .vnan, .vlist _ => by simp [Value.beq]
  | .vnan, .vnan => by simp [Value.beq]
  | .vstr a, .vstr b => by simp [Value.beq]
  | .vstr _, .vint _ | .vstr _, .vnan | .vstr _, .vlist _ => by simp [Value.beq]
  | .vlist a, .vlist b => by
      simp only [Value.beq, Value.vlist.injEq]
      exact Value.beqList_iff a b
  | .vlist _, .vint _ | .vlist _, .vnan | .vlist _, .vstr _ => by simp [Value.beq]

theorem Value.beqList_iff : ∀ a b : List Value, Value.beqList a b = true ↔ a = b
  | [], [] => by simp [Value.beqList]
  | [], _ :: _ => by simp [Value.beqList]
  | _ :: _, [] => by simp [Value.beqList]
  | x :: xs, y :: ys => by
      simp only [Value.beqList, Bool.and_eq_true, List.cons.injEq]
      exact and_congr (Value.beq_iff x y) (Value.beqList_iff xs ys)

end

instance : DecidableEq Value :=
  fun a b => decidable_of_iff (Value.beq a b = true) (Value.beq_iff a b)

instance : BEq Value := ⟨Value.beq⟩

/-- JS truthiness of a value (`0`, `""` and `NaN` are falsy). -/
def truthy : Value → Bool
  | .vint n => decide (n ≠ 0)
  | .vnan => false
  | .vstr s => !s.isEmpty
  | .vlist _ => true

mutual

/-- JS `String(v)` / `v.toString()` on the embedded values. -/
def stringOfValue : Value → String
  | .vint n => toString n
  | .vnan => "NaN"
  | .vstr s => s
  | .vlist l => stringOfList l

/-- JS `Array.prototype.toString`, the comma join. -/
def stringOfList : List Value → String
  | [] => ""
  | [v] => stringOfValue v
  | v :: rest => stringOfValue v ++ "," ++ stringOfList rest

end

/-- JS whitespace stripped by `parseInt` / `Number`. -/
def isJsWs (c : Char) : Bool :=
  c = ' ' || c = '\t' || c = '\n' || c = '\r' || c = '\x0b' || c = '\x0c'

/-- Value of one digit character in the given base, if valid. -/
def charVal (b : Nat) (c : Char) : Option Nat :=
  let v : Option Nat :=
    if c.isDigit then some (c.toNat - 48)
    else if 'a' ≤ c ∧ c ≤ 'f' then some (c.toNat - 87)
    else if 'A' ≤ c ∧ c ≤ 'F' then some (c.toNat - 55)
    else none
  match v with
  | some n => if n < b then some n else none
  | none => none

/-- Longest digit prefix in base `b`; `none` when no digit was read. -/
def parsePrefixAux (b : Nat) (acc : Option Nat) : List Char → Option Nat
  | [] => acc
  | c :: cs =>
    match charVal b c with
    | some d => parsePrefixAux b (some (acc.getD 0 * b + d)) cs
    | none => acc

/-- Radix detection of JS `parseInt` without an explicit radix. -/
def parseIntBody (cs : List Char) : Option Nat :=
  match cs with
  | '0' :: 'x' :: rest => parsePrefixAux 16 none rest
  | '0' :: 'X' :: rest => parsePrefixAux 16 none rest
  | _ => parsePrefixAux 10 none cs

/-- JS `parseInt(s)`: skip whitespace, optional sign, `0x` prefix, then
the longest digit prefix; `none` is `NaN`. -/
def parseIntJS (s : String) : Option Int :=
  match s.data.dropWhile isJsWs with
  | '-' :: rest => (parseIntBody rest).map (fun n => -(n : Int))
  | '+' :: rest => (parseIntBody rest).map (fun n => (n : Int))
  | cs => (parseIntBody cs).map (fun n => (n : Int))

/-- All of `cs` as digits in base `b`, accumulating. -/
def allDigitsAux (b : Nat) (acc : Nat) : List Char → Option Nat
  | [] => some acc
  | c :: cs =>
    match charVal b c with
    | some d => allDigitsAux b (acc * b + d) cs
    | none => none

/-- All of `cs` as digits in base `b`; `none` when empty or invalid. -/
def allDigits (b : Nat) (cs : List Char) : Option Nat :=
  match cs with
  | [] => none
  | _ => allDigitsAux b 0 cs

/-- JS `Number(s)` restricted to the integer universe of the embedding:
trimmed empty text is `0`, a signed decimal or unsigned hex literal its
value, anything else (including fractional literals) NaN. -/
def numberOfString (s : String) : Option Int :=
  let cs := ((s.data.dropWhile isJsWs).reverse.dropWhile isJsWs).reverse
  match cs with
  | [] => some 0
  | '0' :: 'x' :: rest => (allDigits 16 rest).map (fun n => (n : Int))
  | '0' :: 'X' :: rest => (allDigits 16 rest).map (fun n => (n : Int))
  | '-' :: rest => (allDigits 10 rest).map (fun n => -(n : Int))
  | '+' :: rest => (allDigits 10 rest).map (fun n => (n : Int))
  | _ => (allDigits 10 cs).map (fun n => (n : Int))

/-- JS `ToNumber` on the embedded values (`none` is NaN). -/
def jsToNumber : Value → Option Int
  | .vint n => some n
  | .vnan => none
  | .vstr s => numberOfString s
  | .vlist l => numberOfString (stringOfList l)

/-- A stored document: the canonical lowercase hex text of its `_id`
plus the remaining fields in insertion order. -/
structure Doc where
  oid : String
  kv : List (String × Value)
deriving DecidableEq, Repr

/-- First binding of key `k` (JS property read on the object states the
code builds, whose keys are unique). -/
def getField : List (String × Value) → String → Option Value
  | [], _ => none
  | e :: rest, k => if e.1 = k then some e.2 else getField rest k

/-- Replace the first binding of `k`, or append one: a JS property
write, and the effect of one `$set` entry. -/
def setField : List (String × Value) → String → Value → List (String × Value)
  | [], k, v => [(k, v)]
  | e :: rest, k, v => if e.1 = k then (k, v) :: rest else e :: setField rest k v

/-- Apply the bindings of `upd` left to right: object spread and the
MongoDB `$set` operator. -/
def applySet : List (String × Value) → List (String × Value) → List (String × Value)
  | kv, [] => kv
  | kv, e :: rest => applySet (setField kv e.1 e.2) rest

/-- Last binding of `k` in an update list: the value a JS object
literal built from these entries would hold at `k`. -/
def lookupLast : List (String × Value) → String → Option Value
  | [], _ => none
  | e :: rest, k =>
    match lookupLast rest k with
    | some v => some v
    | none => if e.1 = k then some e.2 else none

/-- Drop every binding of `k` (the `_id: undefined` / id override shape
of the normalized responses). -/
def eraseField (kv : List (String × Value)) (k : String) : List (String × Value) :=
  kv.filter (fun e => decide (e.1 ≠ k))

/-- Hexadecimal digit test. -/
def isHexChar (c : Char) : Bool :=
  c.isDigit || ('a' ≤ c && c ≤ 'f') || ('A' ≤ c && c ≤ 'F')

/-- `ObjectId.isValid(id) && id.length === 24`: the guard of the
ObjectId lookup tier. -/
def oidGuard (s : String) : Bool :=
  s.length == 24 && s.data.all isHexChar

/-- The two query shapes the store issues: equality on the `id` field,
or on the native `_id`. -/
inductive Query where
  | byId : Value → Query
  | byOid : String → Query
deriving DecidableEq, Repr

/-- MongoDB equality match of a stored field value against a query
value: direct equality, or membership when the field is an array. -/
def valMatch (fv qv : Value) : Bool :=
  fv == qv ||
    (match fv with
     | .vlist l => l.contains qv
     | _ => false)

/-- Whether a document satisfies a query. -/
def docMatches (q : Query) (d : Doc) : Bool :=
  match q with
  | .byId v =>
    match getField d.kv "id" with
    | none => false
    | some fv => valMatch fv v
  | .byOid s => d.oid == s.toLower

/-- `findOneAndUpdate` without sort: rewrite the first matching
document with `f` and return it (`returnDocument: "after"`). -/
def findOneAndUpdate (p : Doc → Bool) (f : Doc → Doc) : List Doc → Option Doc × List Doc
  | [] => (none, [])
  | d :: rest =>
    if p d then (some (f d), f d :: rest)
    else
      let r := findOneAndUpdate p f rest
      (r.1, d :: r.2)

/-- `findOneAndDelete` without sort: remove and return the first
matching document. -/
def findOneAndDelete (p : Doc → Bool) : List Doc → Option Doc × List Doc
  | [] => (none, [])
  | d :: rest =>
    if p d then (some d, rest)
    else
      let r := findOneAndDelete p rest
      (r.1, d :: r.2)

/-- A normalized response record: the stringified `id` plus the other
fields (`_id` suppressed). -/
structure ProdOut where
  id : String
  fields : List (String × Value)
deriving DecidableEq, Repr

/-- Response normalization shared by `getProductById` (line 149) and
`updateProduct` (line 232): `product.id ? String(product.id) :
(product._id ? product._id.toString() : String(id))`. -/
def normalizeOut (id : String) (d : Doc) : ProdOut :=
  { id :=
      match getField d.kv "id" with
      | some v => if truthy v then stringOfValue v else (if d.oid ≠ "" then d.oid else id)
      | none => if d.oid ≠ "" then d.oid else id
    fields := eraseField d.kv "id" }

/-- `getProducts` (lines 76-106): on any failure return `[]`; otherwise
normalize every document, preferring the `id` field, then `_id`, then a
stringified `Math.random()` (`rnd`). -/
def getProducts (db : Option (List Doc)) (rnd : String) : List ProdOut :=
  match db with
  | none => []
  | some coll =>
    coll.map (fun p =>
      let productId : String :=
        match getField p.kv "id" with
        | some v => if truthy v then stringOfValue v else (if p.oid ≠ "" then p.oid else rnd)
        | none => if p.oid ≠ "" then p.oid else rnd
      { id := productId, fields := eraseField p.kv "id" })

/-- `getProductById` (lines 108-164): numeric tier when `parseInt`
succeeds, then string tier, then ObjectId tier under the validity
guard; a connection failure is caught and returned as `null`. -/
def getProductById (db : Option (List Doc)) (id : String) : Option ProdOut :=
  match db with
  | none => none
  | some coll =>
    let p1 : Option Doc :=
      match parseIntJS id with
      | some n => coll.find? (docMatches (.byId (.vint n)))
      | none => none
    let p2 : Option Doc :=
      match p1 with
      | some p => some p
      | none => coll.find? (docMatches (.byId (.vstr id)))
    let p3 : Option Doc :=
      match p2 with
      | some p => some p
      | none => if oidGuard id then coll.find? (docMatches (.byOid id)) else none
    p3.map (normalizeOut id)

/-- `p.id || 0` of the max-id scan in `createProduct` (line 173). -/
def jsOr (ov : Option Value) : Value :=
  match ov with
  | some v => if truthy v then v else .vint 0
  | none => .vint 0

/-- `Math.max(...)` over a non-empty spread: NaN-propagating maximum of
the numeric coercions (the empty case is unreachable behind the length
guard). -/
def jsMaxVals : List Value → Option Int
  | [] => some 0
  | [v] => jsToNumber v
  | v :: rest =>
    match jsToNumber v, jsMaxVals rest with
    | some a, some b => some (max a b)
    | _, _ => none

/-- The max-id scan of `createProduct` (lines 171-174):
`existingProducts.length > 0 ? Math.max(...map(p => p.id || 0)) : 0`. -/
def createMaxId (coll : List Doc) : Option Int :=
  if coll.isEmpty then some 0
  else jsMaxVals (coll.map (fun p => jsOr (getField p.kv "id")))

/-- `maxId + 1` of line 177 (NaN-propagating). -/
def createIdVal (coll : List Doc) : Value :=
  match createMaxId coll with
  | some n => .vint (n + 1)
  | none => .vnan

/-- The inserted document body of lines 176-181: `id` first, the input
spread over it, then both timestamps. -/
def createNewKv (coll : List Doc) (product : List (String × Value)) (ts : String) :
    List (String × Value) :=
  applySet []
    ((("id", createIdVal coll) :: product) ++ [("createdAt", .vstr ts), ("updatedAt", .vstr ts)])

/-- `newProduct.id.toString()` of line 186, read off the final object. -/
def createRetIdStr (coll : List Doc) (product : List (String × Value)) (ts : String) : String :=
  match getField (createNewKv coll product ts) "id" with
  | some v => stringOfValue v
  | none => ""

/-- The response object of lines 184-188: the stored body with `id`
stringified and `_id` the inserted ObjectId text. -/
def createRet (coll : List Doc) (product : List (String × Value)) (ts newOid : String) :
    List (String × Value) :=
  setField (setField (createNewKv coll product ts) "id" (.vstr (createRetIdStr coll product ts)))
    "_id" (.vstr newOid)

/-- `createProduct` (lines 166-193): next id from the max scan, the
input spread over it, both timestamps set to the instant `ts`, the
document inserted with the fresh ObjectId `newOid`, and the response
carrying the stringified id plus `_id`.  The input is the parsed
request body; the controller never sends an `_id` key, so the embedded
input universe has none. -/
def createProduct (db : Option (List Doc)) (product : List (String × Value)) (ts : String)
    (newOid : String) : Except Unit (List (String × Value) × List Doc) :=
  match db with
  | none => .error ()
  | some coll =>
    .ok (createRet coll product ts newOid, coll ++ [⟨newOid, createNewKv coll product ts⟩])

/-- The single query `updateProduct` (lines 212-223) and
`deleteProduct` (lines 261-272) issue: numeric when `parseInt`
succeeds, else ObjectId under the validity guard, else exact string. -/
def mutQuery (id : String) : Query :=
  match parseIntJS id with
  | some n => .byId (.vint n)
  | none => if oidGuard id then .byOid id else .byId (.vstr id)

/-- The document rewrite of `updateProduct`: `$set` of the patch with
`updatedAt` forced to the instant `ts`. -/
def applyUpd (updates : List (String × Value)) (ts : String) (d : Doc) : Doc :=
  ⟨d.oid, applySet d.kv (updates ++ [("updatedAt", .vstr ts)])⟩

/-- `updateProduct` (lines 195-247): one `findOneAndUpdate` on the
single query, normalized response on a match, `null` otherwise, the
storage error rethrown. -/
def updateProduct (db : Option (List Doc)) (id : String) (updates : List (String × Value))
    (ts : String) : Except Unit (Option ProdOut × List Doc) :=
  match db with
  | none => .error ()
  | some coll =>
    let r := findOneAndUpdate (docMatches (mutQuery id)) (applyUpd updates ts) coll
    match r.1 with
    | some v => .ok (some (normalizeOut id v), r.2)
    | none => .ok (none, r.2)

/-- `deleteProduct` (lines 249-287): one `findOneAndDelete` on the
single query, `true` exactly when a document was removed, the storage
error rethrown. -/
def deleteProduct (db : Option (List Doc)) (id : String) : Except Unit (Bool × List Doc) :=
  match db with
  | none => .error ()
  | some coll =>
    let r := findOneAndDelete (docMatches (mutQuery id)) coll
    match r.1 with
    | some _ => .ok (true, r.2)
    | none => .ok (false, r.2)

/-- The hidden-set rewrite of `POST /api/static-products/toggle`
(db.js lines 391-403): `indexOf` then `splice` removes the first
occurrence when present, `push` appends when absent. -/
def toggleStatic (hidden : List String) (pid : String) : List String :=
  if pid ∈ hidden then hidden.erase pid else hidden ++ [pid]

/-- Numeric-id lookup tier of `getProductById` (lines 120-126). -/
def tier1 (coll : List Doc) (id : String) : Option Doc :=
  match parseIntJS id with
  | some n => coll.find? (docMatches (.byId (.vint n)))
  | none => none

/-- String-id lookup tier of `getProductById` (lines 128-134). -/
def tier2 (coll : List Doc) (id : String) : Option Doc :=
  coll.find? (docMatches (.byId (.vstr id)))

/-- ObjectId lookup tier of `getProductById` (lines 136-146). -/
def tier3 (coll : List Doc) (id : String) : Option Doc :=
  if oidGuard id then coll.find? (docMatches (.byOid id)) else none

/-- A document matches some applicable lookup tier of
`getProductById` for the text `id`. -/
def anyTier (id : String) (d : Doc) : Bool :=
  (match parseIntJS id with
   | some n => docMatches (.byId (.vint n)) d
   | none => false)
  || docMatches (.byId (.vstr id)) d
  || (oidGuard id && docMatches (.byOid id) d)

/-- The document's `id` field is an integer or absent (the schema shape
`createProduct`'s max scan sums up correctly). -/
def isIntOrMissingId (d : Doc) : Bool :=
  match getField d.kv "id" with
  | none => true
  | some (.vint _) => true
  | some _ => false

/-- The integer id of a document, an absent id counting as `0`. -/
def idNumOf (d : Doc) : Int :=
  match getField d.kv "id" with
  | some (.vint n) => n
  | _ => 0

/-- Intended maximum over the integer ids of a collection. -/
def specMaxId : List Doc → Int
  | [] => 0
  | [d] => idNumOf d
  | d :: rest => max (idNumOf d) (specMaxId rest)

/-- The id string `getProducts` exposes for a document. -/
def jsIdString (rnd : String) (d : Doc) : String :=
  match getField d.kv "id" with
  | some v => if truthy v then stringOfValue v else (if d.oid ≠ "" then d.oid else rnd)
  | none => if d.oid ≠ "" then d.oid else rnd

theorem getField_setField_self (kv : List (String × Value)) (k : String) (v : Value) :
    getField (setField kv k v) k = some v := by
  induction kv with
  | nil => simp [setField, getField]
  | cons e rest ih =>
    by_cases h : e.1 = k
    · simp [setField, getField, h]
    · simp [setField, getField, h, ih]

theorem getField_setField_ne (kv : List (String × Value)) (k k' : String) (v : Value)
    (h : k' ≠ k) : getField (setField kv k v) k' = getField kv k' := by
  induction kv with
  | nil => simp [setField, getField, Ne.symm h]
  | cons e rest ih =>
    by_cases he : e.1 = k
    · subst he
      simp [setField, getField, Ne.symm h]
    · simp [setField, getField, he, ih]

theorem getField_applySet (upd kv : List (String × Value)) (k : String) :
    getField (applySet kv upd) k =
      match lookupLast upd k with
      | some v => some v
      | none => getField kv k := by
  induction upd generalizing kv with
  | nil => simp [applySet, lookupLast]
  | cons e rest ih =>
    simp only [applySet, lookupLast, ih (setField kv e.1 e.2)]
    cases lookupLast rest k with
    | some v => simp
    | none =>
      by_cases he : e.1 = k
      · subst he
        simp [getField_setField_self]
      · simp [he, getField_setField_ne kv e.1 k e.2 (fun hh => he hh.symm)]

theorem lookupLast_append (l₁ l₂ : List (String × Value)) (k : String) :
    lookupLast (l₁ ++ l₂) k =
      match lookupLast l₂ k with
      | some v => some v
      | none => lookupLast l₁ k := by
  induction l₁ with
  | nil => simp [lookupLast]; cases lookupLast l₂ k <;> simp
  | cons e rest ih =>
    have step : lookupLast ((e :: rest) ++ l₂) k =
        match lookupLast (rest ++ l₂) k with
        | some v => some v
        | none => if e.1 = k then some e.2 else none := rfl
    rw [step, ih]
    cases h2 : lookupLast l₂ k <;> cases h3 : lookupLast rest k <;>
      simp [lookupLast, h2, h3]

theorem findOneAndUpdate_decomp (p : Doc → Bool) (f : Doc → Doc) :
    ∀ (l : List Doc) (v : Doc) (l' : List Doc),
      findOneAndUpdate p f l = (some v, l') →
      ∃ pre d post, l = pre ++ d :: post ∧ (∀ e ∈ pre, p e = false) ∧ p d = true ∧
        v = f d ∧ l' = pre ++ f d :: post := by
  intro l
  induction l with
  | nil => intro v l' h; simp [findOneAndUpdate] at h
  | cons d rest ih =>
    intro v l' h
    by_cases hp : p d
    · simp only [findOneAndUpdate, if_pos hp] at h
      injection h with h1 h2
      injection h1 with h1
      exact ⟨[], d, rest, by simp, by simp, hp, h1.symm, by simp [h2.symm]⟩
    · cases hfr : findOneAndUpdate p f rest with
      | mk o l₀ =>
        rw [show findOneAndUpdate p f (d :: rest) = (o, d :: l₀) from by
              simp [findOneAndUpdate, hp, hfr]] at h
        injection h with ho hl'
        obtain ⟨pre, d0, post, hl, hpre, hpd, hv, hl2⟩ := ih v l₀ (by rw [hfr, ho])
        refine ⟨d :: pre, d0, post, by simp [hl], ?_, hpd, hv, ?_⟩
        · intro e he
          rcases List.mem_cons.mp he with he | he
          · simpa [he] using hp
          · exact hpre e he
        · rw [← hl', hl2]
          rfl

theorem findOneAndUpdate_none (p : Doc → Bool) (f : Doc → Doc) (l : List Doc)
    (h : ∀ e ∈ l, p e = false) : findOneAndUpdate p f l = (none, l) := by
  induction l with
  | nil => simp [findOneAndUpdate]
  | cons d rest ih =>
    have hd : p d = false := h d (by simp)
    simp [findOneAndUpdate, hd, ih (fun e he => h e (by simp [he]))]

theorem findOneAndDelete_decomp (p : Doc → Bool) :
    ∀ (l : List Doc) (v : Doc) (l' : List Doc),
      findOneAndDelete p l = (some v, l') →
      ∃ pre post, l = pre ++ v :: post ∧ (∀ e ∈ pre, p e = false) ∧ p v = true ∧
        l' = pre ++ post := by
  intro l
  induction l with
  | nil => intro v l' h; simp [findOneAndDelete] at h
  | cons d rest ih =>
    intro v l' h
    by_cases hp : p d
    · simp only [findOneAndDelete, if_pos hp] at h
      injection h with h1 h2
      injection h1 with h1
      exact ⟨[], rest, by simp [h1], by simp, h1 ▸ hp, by simp [h2.symm]⟩
    · cases hfr : findOneAndDelete p rest with
      | mk o l₀ =>
        rw [show findOneAndDelete p (d :: rest) = (o, d :: l₀) from by
              simp [findOneAndDelete, hp, hfr]] at h
        injection h with ho hl'
        obtain ⟨pre, post, hl, hpre, hpv, hl2⟩ := ih v l₀ (by rw [hfr, ho])
        refine ⟨d :: pre, post, by simp [hl], ?_, hpv, ?_⟩
        · intro e he
          rcases List.mem_cons.mp he with he | he
          · simpa [he] using hp
          · exact hpre e he
        · rw [← hl', hl2]
          rfl

theorem findOneAndDelete_none (p : Doc → Bool) (l : List Doc)
    (h : ∀ e ∈ l, p e = false) : findOneAndDelete p l = (none, l) := by
  induction l with
  | nil => simp [findOneAndDelete]
  | cons d rest ih =>
    have hd : p d = false := h d (by simp)
    simp [findOneAndDelete, hd, ih (fun e he => h e (by simp [he]))]

theorem mutQuery_matches_anyTier (id : String) (d : Doc)
    (h : docMatches (mutQuery id) d = true) : anyTier id d = true := by
  unfold mutQuery at h
  unfold anyTier
  cases hp : parseIntJS id with
  | some n => rw [hp] at h; simp [h]
  | none =>
    rw [hp] at h
    by_cases hg : oidGuard id
    · rw [if_pos hg] at h; simp [h, hg]
    · rw [if_neg hg] at h; simp [h]

theorem getById_none_of_noTier (coll : List Doc) (id : String)
    (h : ∀ d ∈ coll, anyTier id d = false) : getProductById (some coll) id = none := by
  have h1 : ∀ n, parseIntJS id = some n → coll.find? (docMatches (.byId (.vint n))) = none := by
    intro n hn
    rw [List.find?_eq_none]
    intro d hd hmd
    have := h d hd
    unfold anyTier at this
    rw [hn] at this
    simp [hmd] at this
  have h2 : coll.find? (docMatches (.byId (.vstr id))) = none := by
    rw [List.find?_eq_none]
    intro d hd hmd
    have := h d hd
    unfold anyTier at this
    simp [hmd] at this
  have h3 : oidGuard id = true → coll.find? (docMatches (.byOid id)) = none := by
    intro hg
    rw [List.find?_eq_none]
    intro d hd hmd
    have := h d hd
    unfold anyTier at this
    simp [hmd, hg] at this
  unfold getProductById
  cases hp : parseIntJS id with
  | some n =>
    simp only [h1 n hp, h2]
    by_cases hg : oidGuard id
    · simp [h3 hg, hg]
    · simp [hg]
  | none =>
    simp only [h2]
    by_cases hg : oidGuard id
    · simp [h3 hg, hg]
    · simp [hg]

theorem getById_eq_chain (coll : List Doc) (id : String) :
    getProductById (some coll) id =
      (match tier1 coll id with
       | some d => some (normalizeOut id d)
       | none =>
         match tier2 coll id with
         | some d => some (normalizeOut id d)
         | none => (tier3 coll id).map (normalizeOut id)) := by
  unfold getProductById tier1 tier2 tier3
  cases hp : parseIntJS id with
  | none =>
    cases h2 : coll.find? (docMatches (.byId (.vstr id))) <;> simp [hp, h2]
  | some n =>
    cases h1 : coll.find? (docMatches (.byId (.vint n))) with
    | some d => simp [hp, h1]
    | none =>
      cases h2 : coll.find? (docMatches (.byId (.vstr id))) <;> simp [hp, h1, h2]

/-- C1: for every id text, `getProductById` attempts the numeric-id
tier (when `parseInt` yields a number), then the exact string tier,
then the ObjectId tier (when the text is a valid 24-character
identifier), returns the normalized first match, and yields `null`
exactly when every applicable tier fails. -/
theorem C1_getById_three_tier (coll : List Doc) (id : String) :
    (∀ d, tier1 coll id = some d →
      getProductById (some coll) id = some (normalizeOut id d)) ∧
    (tier1 coll id = none → ∀ d, tier2 coll id = some d →
      getProductById (some coll) id = some (normalizeOut id d)) ∧
    (tier1 coll id = none → tier2 coll id = none → ∀ d, tier3 coll id = some d →
      getProductById (some coll) id = some (normalizeOut id d)) ∧
    (getProductById (some coll) id = none ↔
      tier1 coll id = none ∧ tier2 coll id = none ∧ tier3 coll id = none) := by
  rw [getById_eq_chain]
  refine ⟨?_, ?_, ?_, ?_⟩
  · intro d h1
    simp [h1]
  · intro h1 d h2
    simp [h1, h2]
  · intro h1 h2 d h3
    simp [h1, h2, h3]
  · cases h1 : tier1 coll id with
    | some d => simp [h1]
    | none =>
      cases h2 : tier2 coll id with
      | some d => simp [h2]
      | none =>
        cases h3 : tier3 coll id with
        | some d => simp [h3]
        | none => simp [h3]

/-- Witness for C1 at a one-document collection resolved by the
numeric tier. -/
theorem C1_getById_three_tier_witness :
    getProductById (some [⟨"a0", [("id", Value.vint 7)]⟩]) "7" =
      some (normalizeOut "7" ⟨"a0", [("id", Value.vint 7)]⟩) :=
  (C1_getById_three_tier [⟨"a0", [("id", Value.vint 7)]⟩] "7").1
    ⟨"a0", [("id", Value.vint 7)]⟩ rfl

/-- C7: the list operation surfaces no error: a storage failure yields
the empty sequence, and on success every stored document is returned at
its position with `id` normalized to a string and `_id` suppressed. -/
theorem C7_getProducts_total_list :
    (∀ rnd, getProducts none rnd = []) ∧
    (∀ (coll : List Doc) (rnd : String) (i : Nat),
      ((getProducts (some coll) rnd)[i]?).map ProdOut.id = (coll[i]?).map (jsIdString rnd) ∧
      ((getProducts (some coll) rnd)[i]?).map ProdOut.fields =
        (coll[i]?).map (fun (d : Doc) => eraseField d.kv "id")) := by
  constructor
  · intro rnd
    rfl
  · intro coll rnd i
    constructor
    · simp only [getProducts]
      rw [List.getElem?_map]
      cases h : coll[i]? with
      | none => rfl
      | some d => rfl
    · simp only [getProducts]
      rw [List.getElem?_map]
      cases h : coll[i]? with
      | none => rfl
      | some d => rfl

/-- C10: when the storage connection attempt fails, `getProductById`
catches the error and returns `null`, the same value it returns for an
id absent from a reachable collection. -/
theorem C10_getById_outage_collapses :
    ∀ id, getProductById none id = none ∧ getProductById (some []) id = none := by
  intro id
  refine ⟨rfl, ?_⟩
  exact getById_none_of_noTier [] id (by intro d hd; simp at hd)

/-- C8: with the storage backend unreachable, `createProduct`,
`updateProduct` and `deleteProduct` rethrow the connection error
(`Except.error`), while an absent record on a reachable backend yields
the ordinary values `Except.ok none` and `Except.ok false`; the two
outcomes are distinct constructors. -/
theorem C8_storage_error_distinct :
    (∀ product ts newOid, createProduct none product ts newOid = .error ()) ∧
    (∀ id updates ts, updateProduct none id updates ts = .error ()) ∧
    (∀ id, deleteProduct none id = .error ()) ∧
    (∀ coll id updates ts,
      (∀ d ∈ coll, docMatches (mutQuery id) d = false) →
      updateProduct (some coll) id updates ts = .ok (none, coll) ∧
      deleteProduct (some coll) id = .ok (false, coll)) := by
  refine ⟨fun _ _ _ => rfl, fun _ _ _ => rfl, fun _ => rfl, ?_⟩
  intro coll id updates ts h
  constructor
  · simp [updateProduct, findOneAndUpdate_none _ _ coll h]
  · simp [deleteProduct, findOneAndDelete_none _ coll h]

/-- Witness for C8: outage versus one-document miss. -/
theorem C8_storage_error_distinct_witness :
    updateProduct none "1" [] "t0" = .error () ∧
    updateProduct (some [⟨"a0", [("id", Value.vint 3)]⟩]) "1" [] "t0" =
      .ok (none, [⟨"a0", [("id", Value.vint 3)]⟩]) ∧
    deleteProduct (some [⟨"a0", [("id", Value.vint 3)]⟩]) "1" =
      .ok (false, [⟨"a0", [("id", Value.vint 3)]⟩]) :=
  ⟨C8_storage_error_distinct.2.1 "1" [] "t0",
   (C8_storage_error_distinct.2.2.2 [⟨"a0", [("id", Value.vint 3)]⟩] "1" [] "t0"
      (by decide)).1,
   (C8_storage_error_distinct.2.2.2 [⟨"a0", [("id", Value.vint 3)]⟩] "1" [] "t0"
      (by decide)).2⟩

/-- C2: contrary to the claim (and to the source comment "same as
getProductById" at lines 211, 260), update and delete do not fall back
across tiers: for a record stored with the string id "42" and the id
text "42", `getProductById` resolves it through the string tier while
`updateProduct` and `deleteProduct` issue only the numeric query
`id: 42` and report not-found. -/
theorem C2_resolution_divergence :
    getProductById (some [⟨"aaaaaaaaaaaaaaaaaaaaaaaa", [("id", Value.vstr "42")]⟩]) "42" =
      some ⟨"42", []⟩ ∧
    updateProduct (some [⟨"aaaaaaaaaaaaaaaaaaaaaaaa", [("id", Value.vstr "42")]⟩]) "42" [] "t0" =
      .ok (none, [⟨"aaaaaaaaaaaaaaaaaaaaaaaa", [("id", Value.vstr "42")]⟩]) ∧
    deleteProduct (some [⟨"aaaaaaaaaaaaaaaaaaaaaaaa", [("id", Value.vstr "42")]⟩]) "42" =
      .ok (false, [⟨"aaaaaaaaaaaaaaaaaaaaaaaa", [("id", Value.vstr "42")]⟩]) :=
  ⟨rfl, rfl, rfl⟩

/-- C4 counterexample: delete-then-get can still find a record, both
when delete's single query misses an id the string tier resolves, and
when duplicate integer ids (the documented create race) leave a second
matching record after a successful delete. -/
theorem C4_delete_then_get_counterexample :
    (getProductById (some [⟨"aaaaaaaaaaaaaaaaaaaaaaaa", [("id", Value.vstr "42")]⟩]) "42" ≠
      none ∧
     deleteProduct (some [⟨"aaaaaaaaaaaaaaaaaaaaaaaa", [("id", Value.vstr "42")]⟩]) "42" =
      .ok (false, [⟨"aaaaaaaaaaaaaaaaaaaaaaaa", [("id", Value.vstr "42")]⟩]) ∧
     getProductById (some [⟨"aaaaaaaaaaaaaaaaaaaaaaaa", [("id", Value.vstr "42")]⟩]) "42" =
      some ⟨"42", []⟩) ∧
    (deleteProduct (some [⟨"a1", [("id", Value.vint 5)]⟩, ⟨"a2", [("id", Value.vint 5)]⟩]) "5" =
      .ok (true, [⟨"a2", [("id", Value.vint 5)]⟩]) ∧
     getProductById (some [⟨"a2", [("id", Value.vint 5)]⟩]) "5" = some ⟨"5", []⟩) :=
  ⟨⟨by decide, rfl, rfl⟩, ⟨rfl, rfl⟩⟩

/-- C4 (amended): when at most one stored document matches any of
`getProductById`'s lookup tiers for the id text and `deleteProduct`
reports a deletion, a subsequent `getProductById` on the resulting
collection yields `null`. -/
theorem C4_delete_then_get (coll : List Doc) (id : String) (coll' : List Doc)
    (huniq : coll.countP (fun d => anyTier id d) ≤ 1)
    (hdel : deleteProduct (some coll) id = .ok (true, coll')) :
    getProductById (some coll') id = none := by
  have hfd : ∃ v, findOneAndDelete (docMatches (mutQuery id)) coll = (some v, coll') := by
    simp only [deleteProduct] at hdel
    cases hr : findOneAndDelete (docMatches (mutQuery id)) coll with
    | mk o l₀ =>
      rw [hr] at hdel
      cases o with
      | none => simp at hdel
      | some v =>
        simp only [Except.ok.injEq, Prod.mk.injEq] at hdel
        exact ⟨v, by rw [hdel.2]⟩
  obtain ⟨v, hv⟩ := hfd
  obtain ⟨pre, post, hl, _, hpv, hl'⟩ := findOneAndDelete_decomp _ coll v coll' hv
  have hvT : anyTier id v = true := mutQuery_matches_anyTier id v hpv
  have hcnt : (pre ++ post).countP (fun d => anyTier id d) = 0 := by
    rw [hl, List.countP_append] at huniq
    rw [List.countP_append]
    have : List.countP (fun d => anyTier id d) (v :: post) =
        List.countP (fun d => anyTier id d) post + 1 := by
      rw [List.countP_cons]
      simp [hvT]
    omega
  refine getById_none_of_noTier coll' id ?_
  intro d hd
  have := List.countP_eq_zero.mp hcnt d (by rw [← hl']; exact hd)
  simpa using this
/-- Witness for C4: one matching record, deleted, then unresolvable. -/
theorem C4_delete_then_get_witness :
    List.countP (fun d => anyTier "5" d) [⟨"a0", [("id", Value.vint 5)]⟩] ≤ 1 ∧
    deleteProduct (some [⟨"a0", [("id", Value.vint 5)]⟩]) "5" = .ok (true, []) ∧
    getProductById (some ([] : List Doc)) "5" = none :=
  ⟨by decide, rfl, C4_delete_then_get [⟨"a0", [("id", Value.vint 5)]⟩] "5" [] (by decide) rfl⟩

/-- C6: on a duplicate-free hidden list (the set representation the
toggle route itself maintains), toggling removes a present id and adds
an absent one, and toggling twice restores the original hidden set:
same members, still duplicate-free. -/
theorem C6_toggle_involution (h : List String) (X : String) (hd : h.Nodup) :
    (X ∈ h → X ∉ toggleStatic h X) ∧
    (X ∉ h → X ∈ toggleStatic h X) ∧
    (∀ y, y ∈ toggleStatic (toggleStatic h X) X ↔ y ∈ h) ∧
    (toggleStatic (toggleStatic h X) X).Nodup := by
  by_cases hm : X ∈ h
  · have h1 : toggleStatic h X = h.erase X := by simp [toggleStatic, hm]
    have hnm : X ∉ h.erase X := hd.not_mem_erase
    have h2 : toggleStatic (toggleStatic h X) X = h.erase X ++ [X] := by
      rw [h1]
      simp [toggleStatic, hnm]
    refine ⟨fun _ => h1 ▸ hnm, fun hc => absurd hm hc, ?_, ?_⟩
    · intro y
      rw [h2]
      by_cases hy : y = X
      · simp [hy, hm]
      · simp [hy, hd.mem_erase_iff]
    · rw [h2]
      refine List.Nodup.append (hd.erase X) (by simp) ?_
      intro a ha hb
      simp only [List.mem_singleton] at hb
      exact hnm (hb ▸ ha)
  · have h1 : toggleStatic h X = h ++ [X] := by simp [toggleStatic, hm]
    have h2 : toggleStatic (toggleStatic h X) X = h := by
      rw [h1]
      have : X ∈ h ++ [X] := by simp
      simp only [toggleStatic, if_pos this]
      rw [List.erase_append_right _ hm]
      simp
    exact ⟨fun hc => absurd hc hm, fun _ => by simp [h1], fun y => by rw [h2], by rw [h2]; exact hd⟩

/-- Witness for C6 on the hidden set containing exactly "a". -/
theorem C6_toggle_involution_witness :
    ("a" ∈ ["a"] → "a" ∉ toggleStatic ["a"] "a") ∧
    ("a" ∉ ["a"] → "a" ∈ toggleStatic ["a"] "a") ∧
    (∀ y, y ∈ toggleStatic (toggleStatic ["a"] "a") "a" ↔ y ∈ ["a"]) ∧
    (toggleStatic (toggleStatic ["a"] "a") "a").Nodup :=
  C6_toggle_involution ["a"] "a" (by decide)

/-- C5: whenever `updateProduct` resolves a document, the stored
rewrite and the response are the `$set` of the patch: `updatedAt`
becomes the operation instant, every field named in the patch is fully
replaced by its last patch value, and every other field of the
document is untouched. -/
theorem C5_update_frame (coll : List Doc) (id : String) (p : List (String × Value))
    (ts : String) (out : ProdOut) (coll' : List Doc)
    (hup : updateProduct (some coll) id p ts = .ok (some out, coll')) :
    ∃ pre d post,
      coll = pre ++ d :: post ∧
      coll' = pre ++ applyUpd p ts d :: post ∧
      out = normalizeOut id (applyUpd p ts d) ∧
      getField (applyUpd p ts d).kv "updatedAt" = some (.vstr ts) ∧
      (∀ k, k ≠ "updatedAt" → lookupLast p k = none →
        getField (applyUpd p ts d).kv k = getField d.kv k) ∧
      (∀ k v, k ≠ "updatedAt" → lookupLast p k = some v →
        getField (applyUpd p ts d).kv k = some v) := by
  have hfu : ∃ v, findOneAndUpdate (docMatches (mutQuery id)) (applyUpd p ts) coll =
      (some v, coll') ∧ out = normalizeOut id v := by
    simp only [updateProduct] at hup
    cases hr : findOneAndUpdate (docMatches (mutQuery id)) (applyUpd p ts) coll with
    | mk o l₀ =>
      rw [hr] at hup
      cases o with
      | none => simp at hup
      | some v =>
        simp only [Except.ok.injEq, Prod.mk.injEq, Option.some.injEq] at hup
        exact ⟨v, by rw [hup.2], hup.1.symm⟩
  obtain ⟨v, hv, hout⟩ := hfu
  obtain ⟨pre, d, post, hl, _, _, hvd, hl'⟩ :=
    findOneAndUpdate_decomp _ _ coll v coll' hv
  subst hvd
  refine ⟨pre, d, post, hl, hl', hout, ?_, ?_, ?_⟩
  · show getField (applySet d.kv (p ++ [("updatedAt", Value.vstr ts)])) "updatedAt" = _
    rw [getField_applySet, lookupLast_append]
    simp [lookupLast]
  · intro k hk hnone
    show getField (applySet d.kv (p ++ [("updatedAt", Value.vstr ts)])) k = _
    rw [getField_applySet, lookupLast_append]
    simp [lookupLast, Ne.symm hk, hnone]
  · intro k v hk hsome
    show getField (applySet d.kv (p ++ [("updatedAt", Value.vstr ts)])) k = _
    rw [getField_applySet, lookupLast_append]
    simp [lookupLast, Ne.symm hk, hsome]

/-- Witness for C5: empty patch on a one-document collection. -/
theorem C5_update_frame_witness :
    ∃ pre d post,
      [(⟨"a0", [("id", Value.vint 1), ("name", Value.vstr "n")]⟩ : Doc)] = pre ++ d :: post ∧
      [(⟨"a0", [("id", Value.vint 1), ("name", Value.vstr "n"), ("updatedAt", Value.vstr "T")]⟩ :
          Doc)] = pre ++ applyUpd [] "T" d :: post ∧
      (⟨"1", [("name", Value.vstr "n"), ("updatedAt", Value.vstr "T")]⟩ : ProdOut) =
        normalizeOut "1" (applyUpd [] "T" d) ∧
      getField (applyUpd [] "T" d).kv "updatedAt" = some (.vstr "T") ∧
      (∀ k, k ≠ "updatedAt" → lookupLast [] k = none →
        getField (applyUpd [] "T" d).kv k = getField d.kv k) ∧
      (∀ k v, k ≠ "updatedAt" → lookupLast [] k = some v →
        getField (applyUpd [] "T" d).kv k = some v) :=
  C5_update_frame [⟨"a0", [("id", Value.vint 1), ("name", Value.vstr "n")]⟩] "1" [] "T"
    ⟨"1", [("name", Value.vstr "n"), ("updatedAt", Value.vstr "T")]⟩
    [⟨"a0", [("id", Value.vint 1), ("name", Value.vstr "n"), ("updatedAt", Value.vstr "T")]⟩]
    rfl

theorem jsOr_int (d : Doc) (h : isIntOrMissingId d = true) :
    jsToNumber (jsOr (getField d.kv "id")) = some (idNumOf d) := by
  unfold isIntOrMissingId at h
  unfold jsOr idNumOf
  cases hf : getField d.kv "id" with
  | none => simp [hf, jsToNumber]
  | some w =>
    rw [hf] at h
    cases w with
    | vint n =>
      by_cases hn : n = 0
      · simp [hf, truthy, hn, jsToNumber]
      · simp [hf, truthy, hn, jsToNumber]
    | vnan => simp at h
    | vstr s => simp at h
    | vlist l => simp at h

theorem jsMaxVals_map_int : ∀ l : List Doc, l ≠ [] → l.all isIntOrMissingId = true →
    jsMaxVals (l.map (fun p => jsOr (getField p.kv "id"))) = some (specMaxId l)
  | [], hne, _ => absurd rfl hne
  | [d], _, h => by
    have hd : isIntOrMissingId d = true := by simpa using h
    show jsToNumber (jsOr (getField d.kv "id")) = some (specMaxId [d])
    rw [jsOr_int d hd]
    rfl
  | d :: d2 :: rest, _, h => by
    have hd : isIntOrMissingId d = true := by
      simp only [List.all_cons, Bool.and_eq_true] at h
      exact h.1
    have htail : (d2 :: rest).all isIntOrMissingId = true := by
      simp only [List.all_cons, Bool.and_eq_true] at h ⊢
      exact ⟨h.2.1, h.2.2⟩
    have ih := jsMaxVals_map_int (d2 :: rest) (List.cons_ne_nil d2 rest) htail
    show (match jsToNumber (jsOr (getField d.kv "id")),
        jsMaxVals ((d2 :: rest).map (fun p => jsOr (getField p.kv "id"))) with
      | some a, some b => some (max a b)
      | _, _ => none) = some (specMaxId (d :: d2 :: rest))
    rw [jsOr_int d hd, ih]
    rfl

theorem createMaxId_int (coll : List Doc) (h : coll.all isIntOrMissingId = true) :
    createMaxId coll = some (specMaxId coll) := by
  cases coll with
  | nil => rfl
  | cons d rest => exact jsMaxVals_map_int (d :: rest) (List.cons_ne_nil d rest) h

/-- C9: when the input record itself carries an `id` binding, the
spread in `createProduct` places it after the computed sequential id,
so the stored document and the response carry the caller-supplied id
(the response stringified by `toString`), not `maxId + 1`. -/
theorem C9_create_input_id_override (coll : List Doc) (product : List (String × Value))
    (ts newOid : String) (v : Value) (hid : lookupLast product "id" = some v) :
    ∃ ret newDoc,
      createProduct (some coll) product ts newOid = .ok (ret, coll ++ [newDoc]) ∧
      getField newDoc.kv "id" = some v ∧
      getField ret "id" = some (.vstr (stringOfValue v)) := by
  have hkv : getField (createNewKv coll product ts) "id" = some v := by
    unfold createNewKv
    rw [getField_applySet, lookupLast_append]
    simp [lookupLast, hid]
  refine ⟨createRet coll product ts newOid, ⟨newOid, createNewKv coll product ts⟩, rfl, hkv, ?_⟩
  unfold createRet
  rw [getField_setField_ne _ _ _ _ (by decide), getField_setField_self]
  unfold createRetIdStr
  rw [hkv]

/-- Witness for C9: the caller supplies the string id "abc". -/
theorem C9_create_input_id_override_witness :
    lookupLast [("id", Value.vstr "abc")] "id" = some (Value.vstr "abc") ∧
    ∃ ret newDoc,
      createProduct (some []) [("id", Value.vstr "abc")] "t0" "b0" = .ok (ret, [] ++ [newDoc]) ∧
      getField newDoc.kv "id" = some (Value.vstr "abc") ∧
      getField ret "id" = some (.vstr (stringOfValue (Value.vstr "abc"))) :=
  ⟨rfl, C9_create_input_id_override [] [("id", Value.vstr "abc")] "t0" "b0"
    (Value.vstr "abc") rfl⟩

/-- C3 counterexample: the claim fails for an input that carries its
own `id` (the spread overrides the computed `maxId + 1`, here on the
empty collection where the claim demands integer id 1), and for a
collection holding a non-numeric string id (the max scan coerces it to
NaN, so the stored id is NaN rather than any integer). -/
theorem C3_create_next_id_counterexample :
    (createProduct (some []) [("id", Value.vstr "abc")] "t0" "b0" =
      .ok ([("id", Value.vstr "abc"), ("createdAt", Value.vstr "t0"),
            ("updatedAt", Value.vstr "t0"), ("_id", Value.vstr "b0")],
           [⟨"b0", [("id", Value.vstr "abc"), ("createdAt", Value.vstr "t0"),
                    ("updatedAt", Value.vstr "t0")]⟩]) ∧
     getField [("id", Value.vstr "abc"), ("createdAt", Value.vstr "t0"),
        ("updatedAt", Value.vstr "t0")] "id" ≠ some (Value.vint 1)) ∧
    (createProduct (some [⟨"a0", [("id", Value.vstr "x")]⟩]) [] "t0" "b0" =
      .ok ([("id", Value.vstr "NaN"), ("createdAt", Value.vstr "t0"),
            ("updatedAt", Value.vstr "t0"), ("_id", Value.vstr "b0")],
           [⟨"a0", [("id", Value.vstr "x")]⟩,
            ⟨"b0", [("id", Value.vnan), ("createdAt", Value.vstr "t0"),
                    ("updatedAt", Value.vstr "t0")]⟩]) ∧
     ∀ n : Int, getField [("id", Value.vnan), ("createdAt", Value.vstr "t0"),
        ("updatedAt", Value.vstr "t0")] "id" ≠ some (Value.vint n)) :=
  ⟨⟨rfl, by decide⟩, ⟨rfl, by intro n h; cases h⟩⟩

/-- C3 (amended): on a collection whose records carry integer or
missing ids and for an input without its own `id` binding,
`createProduct` stores a document whose id is one greater than the
maximum existing id (missing ids count as 0, the empty collection
yields 1), whose `createdAt` and `updatedAt` both equal the operation
instant, and returns the stored record with the id rendered as a
string and `_id` attached; all other response fields are the stored
ones. -/
theorem C3_create_next_id (coll : List Doc) (product : List (String × Value))
    (ts newOid : String)
    (hall : coll.all isIntOrMissingId = true)
    (hnoid : lookupLast product "id" = none) :
    ∃ ret newDoc,
      createProduct (some coll) product ts newOid = .ok (ret, coll ++ [newDoc]) ∧
      newDoc.oid = newOid ∧
      getField newDoc.kv "id" = some (.vint (specMaxId coll + 1)) ∧
      getField newDoc.kv "createdAt" = some (.vstr ts) ∧
      getField newDoc.kv "updatedAt" = some (.vstr ts) ∧
      getField ret "id" = some (.vstr (toString (specMaxId coll + 1))) ∧
      getField ret "_id" = some (.vstr newOid) ∧
      (∀ k, k ≠ "id" → k ≠ "_id" → getField ret k = getField newDoc.kv k) := by
  have hidval : createIdVal coll = .vint (specMaxId coll + 1) := by
    unfold createIdVal
    rw [createMaxId_int coll hall]
  have hkvid : getField (createNewKv coll product ts) "id" =
      some (.vint (specMaxId coll + 1)) := by
    unfold createNewKv
    rw [getField_applySet, lookupLast_append]
    simp [lookupLast, hnoid, hidval]
  refine ⟨createRet coll product ts newOid, ⟨newOid, createNewKv coll product ts⟩,
    rfl, rfl, hkvid, ?_, ?_, ?_, ?_, ?_⟩
  · show getField (createNewKv coll product ts) "createdAt" = _
    unfold createNewKv
    rw [getField_applySet, lookupLast_append]
    simp [lookupLast]
  · show getField (createNewKv coll product ts) "updatedAt" = _
    unfold createNewKv
    rw [getField_applySet, lookupLast_append]
    simp [lookupLast]
  · unfold createRet
    rw [getField_setField_ne _ _ _ _ (by decide), getField_setField_self]
    unfold createRetIdStr
    rw [hkvid]
    rfl
  · unfold createRet
    rw [getField_setField_self]
  · intro k hkid hkoid
    unfold createRet
    rw [getField_setField_ne _ _ _ _ hkoid, getField_setField_ne _ _ _ _ hkid]

/-- Witness for C3 on a collection with maximum id 2. -/
theorem C3_create_next_id_witness :
    ([(⟨"a0", [("id", Value.vint 2)]⟩ : Doc)].all isIntOrMissingId = true) ∧
    lookupLast [("name", Value.vstr "n")] "id" = none ∧
    ∃ ret newDoc,
      createProduct (some [⟨"a0", [("id", Value.vint 2)]⟩]) [("name", Value.vstr "n")]
          "t0" "b0" = .ok (ret, [⟨"a0", [("id", Value.vint 2)]⟩] ++ [newDoc]) ∧
      newDoc.oid = "b0" ∧
      getField newDoc.kv "id" =
        some (.vint (specMaxId [⟨"a0", [("id", Value.vint 2)]⟩] + 1)) ∧
      getField newDoc.kv "createdAt" = some (.vstr "t0") ∧
      getField newDoc.kv "updatedAt" = some (.vstr "t0") ∧
      getField ret "id" =
        some (.vstr (toString (specMaxId [⟨"a0", [("id", Value.vint 2)]⟩] + 1))) ∧
      getField ret "_id" = some (.vstr "b0") ∧
      (∀ k, k ≠ "id" → k ≠ "_id" → getField ret k = getField newDoc.kv k) :=
  ⟨by decide, rfl,
   C3_create_next_id [⟨"a0", [("id", Value.vint 2)]⟩] [("name", Value.vstr "n")]
     "t0" "b0" (by decide) rfl⟩
